import Mathlib

/-!
Verification of the custard-calendar analytics core: prediction models
(`analytics/predict.py`), forecast assembly (`analytics/forecast_writer.py`)
and accuracy evaluation (`analytics/accuracy.py`), shallowly embedded in Lean.

Dates are embedded as integers counting days from the civil epoch 1970-01-01
(the granularity of `pd.Timestamp` values normalized to dates, which is how
`flavor_date` is stored after `load_clean`).  Python float arithmetic is
idealised as exact rational arithmetic over `ℚ`.
-/

/-- Day of week of an epoch-day number, pandas convention 0=Monday .. 6=Sunday.
Epoch day 0 (1970-01-01) was a Thursday, i.e. 3. -/
def dayOfWeek (z : Int) : Int := (z + 3) % 7

/-- Convert an epoch-day number to a civil (year, month, day) triple,
proleptic Gregorian calendar. -/
def civilFromDays (z : Int) : Int × Int × Int :=
  let z' := z + 719468
  let era := z' / 146097
  let doe := z' - era * 146097
  let yoe := (doe - doe / 1460 + doe / 36524 - doe / 146096) / 365
  let y := yoe + era * 400
  let doy := doe - (365 * yoe + yoe / 4 - yoe / 100)
  let mp := (5 * doy + 2) / 153
  let d := doy - (153 * mp + 2) / 5 + 1
  let m := mp + (if mp < 10 then 3 else -9)
  (y + (if m ≤ 2 then 1 else 0), m, d)

/-- Convert a civil (year, month, day) date to its epoch-day number. -/
def daysFromCivil (y m d : Int) : Int :=
  let y' := y - (if m ≤ 2 then 1 else 0)
  let era := y' / 400
  let yoe := y' - era * 400
  let doy := (153 * (m + (if m > 2 then -3 else 9)) + 2) / 5 + d - 1
  let doe := yoe * 365 + yoe / 4 - yoe / 100 + doy
  era * 146097 + doe - 719468

/-- Zero-pad a nonnegative integer to two digits. -/
def pad2 (n : Int) : String :=
  if n < 10 then "0" ++ toString n else toString n

/-- Zero-pad a nonnegative integer to four digits. -/
def pad4 (n : Int) : String :=
  if n < 10 then "000" ++ toString n
  else if n < 100 then "00" ++ toString n
  else if n < 1000 then "0" ++ toString n
  else toString n

/-- Render an epoch-day number in ISO "YYYY-MM-DD" format, as Python's
`str(date)` / `strftime("%Y-%m-%d")` do. -/
def dateToString (z : Int) : String :=
  let c := civilFromDays z
  pad4 c.1 ++ "-" ++ pad2 c.2.1 ++ "-" ++ pad2 c.2.2

/-- The month (1..12) of an epoch-day number, as `pd.Timestamp.month`. -/
def monthOf (z : Int) : Int := (civilFromDays z).2.1

/-- One cleaned historical serving event: a row of the `load_clean()`
DataFrame with columns `store_slug`, `flavor_date`, `title`, and the derived
convenience columns `dow` and `month`. -/
structure FlavorEvent where
  store_slug : String
  flavor_date : Int
  title : String
  dow : Int
  month : Int
deriving DecidableEq, Repr

/-- Lexicographic strict order on char lists, by code point — the order
Python uses to compare strings. -/
def charListLt : List Char → List Char → Bool
  | [], [] => false
  | [], _ :: _ => true
  | _ :: _, [] => false
  | a :: as, b :: bs => if a < b then true else if b < a then false else charListLt as bs

/-- Python string `<` (lexicographic by code point), in a form the kernel can
evaluate. -/
def strLt (a b : String) : Bool := charListLt a.data b.data

/-- Python string `<=`. -/
def strLe (a b : String) : Bool := !strLt b a

/-- Insert into a sorted list, before the first element it compares `le` to;
the building block of a stable sort. -/
def orderedInsertBy {α : Type} (le : α → α → Bool) (a : α) : List α → List α
  | [] => [a]
  | b :: bs => if le a b then a :: b :: bs else b :: orderedInsertBy le a bs

/-- Stable sort by the total Boolean preorder `le`: among `le`-equivalent
elements the original order is kept, matching Python's stable `sorted` and
pandas `nlargest(keep="first")`. -/
def insertionSortBy {α : Type} (le : α → α → Bool) : List α → List α
  | [] => []
  | a :: as => orderedInsertBy le a (insertionSortBy le as)

/-- Python `sorted(df["title"].unique())`: the distinct elements of a list in
ascending order. -/
def sortedUnique (l : List String) : List String :=
  (insertionSortBy strLe l).dedup

/-- Maximum of an integer list, 0 on the empty list (only used on nonempty
lists, mirroring pandas `.max()`). -/
def intListMax : List Int → Int
  | [] => 0
  | a :: t => t.foldl max a

/-- Minimum of an integer list, 0 on the empty list (only used on nonempty
lists, mirroring pandas `.min()`). -/
def intListMin : List Int → Int
  | [] => 0
  | a :: t => t.foldl min a

/-- The store's qualifying history: `df[(df.store_slug == s) & (df.flavor_date < date)]`. -/
def storeHistorical (df : List FlavorEvent) (s : String) (date : Int) : List FlavorEvent :=
  df.filter (fun r => r.store_slug == s && r.flavor_date < date)

/-- `value_counts()[f]`: the number of rows of `hist` whose title is `f`. -/
def countTitle (hist : List FlavorEvent) (f : String) : Nat :=
  (hist.filter (fun r => r.title == f)).length

/-- `historical.groupby("title")["flavor_date"].max()[f]`: the most recent
date at which `f` was served (meaningful only when `countTitle hist f ≥ 1`). -/
def lastSeen (hist : List FlavorEvent) (f : String) : Int :=
  intListMax ((hist.filter (fun r => r.title == f)).map (·.flavor_date))

/-- `total_span`: the span in days of the store history, clamped to at least 1
(`if total_span <= 0: total_span = 1`). -/
def totalSpan (hist : List FlavorEvent) : Int :=
  max (intListMax (hist.map (·.flavor_date)) - intListMin (hist.map (·.flavor_date))) 1

/-- The `freq_probs` component of `FrequencyRecencyModel.predict_proba`:
per-store frequency `value_counts / sum`, reindexed over the vocabulary with
fill value 0. -/
def freqProb (hist : List FlavorEvent) (f : String) : ℚ :=
  (countTitle hist f : ℚ) / (hist.length : ℚ)

/-- The recency (overdue-ratio) component shared by `FrequencyRecencyModel`
and `MarkovRecencyModel`: `expected = max(7, span/(count.clip(lower=2)-1))`,
`ratio = min(days_since/expected, 3)/3`, reindexed over the vocabulary with
fill value 0 (flavors never served at the store). -/
def overdue_ratio (hist : List FlavorEvent) (date : Int) (f : String) : ℚ :=
  if countTitle hist f = 0 then 0
  else
    let expected : ℚ := max 7 ((totalSpan hist : ℚ) / ((max (countTitle hist f) 2 : ℚ) - 1))
    let days_since : ℚ := ((date - lastSeen hist f : Int) : ℚ)
    min (days_since / expected) 3 / 3

/-- Flavors eligible for DoW/seasonal bonuses: at least `MIN_BONUS_APPEARANCES = 5`
appearances at the store. -/
def eligibleFlavors (hist : List FlavorEvent) : List String :=
  (sortedUnique (hist.map (·.title))).filter (fun f => 5 ≤ countTitle hist f)

/-- Appearances of flavor `f` at the store on the target weekday. -/
def dowCount (hist : List FlavorEvent) (target : Int) (f : String) : Nat :=
  (hist.filter (fun r => r.title == f && r.dow == target)).length

/-- The normalizer of the DoW bonus: total target-weekday appearances over
eligible flavors. -/
def dowTotal (hist : List FlavorEvent) (target : Int) : Nat :=
  ((eligibleFlavors hist).map (dowCount hist target)).sum

/-- `FrequencyRecencyModel._compute_dow_bonus`, as the per-flavor function the
reindexed Series denotes: zero when no flavor is eligible, when the normalizer
is zero, or when `f` is ineligible. -/
def dow_bonus (hist : List FlavorEvent) (target : Int) (f : String) : ℚ :=
  if eligibleFlavors hist = [] then 0
  else if dowTotal hist target = 0 then 0
  else if 5 ≤ countTitle hist f then (dowCount hist target f : ℚ) / (dowTotal hist target : ℚ)
  else 0

/-- The 3-month window with wrap-around built by `_compute_seasonal_bonus`
(`{((m-2) % 12) + 1, ((m-1) % 12) + 1, m}`). -/
def monthsInWindow (m : Int) : List Int :=
  [((m - 2) % 12) + 1, ((m - 1) % 12) + 1, m]

/-- Appearances of flavor `f` at the store in the seasonal window. -/
def seasonalCount (hist : List FlavorEvent) (m : Int) (f : String) : Nat :=
  (hist.filter (fun r => r.title == f && (monthsInWindow m).contains r.month)).length

/-- The normalizer of the seasonal bonus. -/
def seasonalTotal (hist : List FlavorEvent) (m : Int) : Nat :=
  ((eligibleFlavors hist).map (seasonalCount hist m)).sum

/-- `FrequencyRecencyModel._compute_seasonal_bonus`, as the per-flavor function
the reindexed Series denotes. -/
def seasonal_bonus (hist : List FlavorEvent) (m : Int) (f : String) : ℚ :=
  if eligibleFlavors hist = [] then 0
  else if seasonalTotal hist m = 0 then 0
  else if 5 ≤ countTitle hist f then (seasonalCount hist m f : ℚ) / (seasonalTotal hist m : ℚ)
  else 0

/-- `pd.Series(1.0 / n, index=self.all_flavors)`: the uniform distribution
over the vocabulary. -/
def uniformDist (v : List String) : List (String × ℚ) :=
  v.map (fun f => (f, 1 / (v.length : ℚ)))

/-- The final renormalization step shared by both models:
`total = scores.sum(); if total > 0: scores = scores / total; return scores`,
with the Series laid out over the vocabulary `v`. -/
def normalizeOrId (v : List String) (scores : String → ℚ) : List (String × ℚ) :=
  if 0 < (v.map scores).sum then v.map (fun f => (f, scores f / (v.map scores).sum))
  else v.map (fun f => (f, scores f))

/-- Fitted state of `FrequencyRecencyModel`: the weight blend, the training
DataFrame and the vocabulary frozen at `fit` time. -/
structure FrequencyRecencyModel where
  frequency_weight : ℚ
  recency_weight : ℚ
  dow_weight : ℚ
  seasonal_weight : ℚ
  df : List FlavorEvent
  all_flavors : List String

/-- `FrequencyRecencyModel().fit(df)` with the default weight blend. -/
def FrequencyRecencyModel.fit (df : List FlavorEvent) : FrequencyRecencyModel :=
  ⟨0.6, 0.2, 0.1, 0.1, df, sortedUnique (df.map (·.title))⟩

/-- The combined per-flavor score of `FrequencyRecencyModel.predict_proba`:
the weighted blend of frequency, overdue ratio, DoW bonus and seasonal
bonus. -/
def FrequencyRecencyModel.scores (m : FrequencyRecencyModel)
    (historical : List FlavorEvent) (date : Int) (f : String) : ℚ :=
  m.frequency_weight * freqProb historical f
  + m.recency_weight * overdue_ratio historical date f
  + m.dow_weight * dow_bonus historical (dayOfWeek date) f
  + m.seasonal_weight * seasonal_bonus historical (monthOf date) f

/-- `FrequencyRecencyModel.predict_proba`, continued: uniform fallback on
empty qualifying history, otherwise the weighted blend renormalized when the
total is positive. -/
def FrequencyRecencyModel.predict_proba (m : FrequencyRecencyModel)
    (store_slug : String) (date : Int) : List (String × ℚ) :=
  let historical := storeHistorical m.df store_slug date
  if historical.length = 0 then uniformDist m.all_flavors
  else normalizeOrId m.all_flavors (m.scores historical date)

/-- Modelled from the spec: `analytics.basic_metrics.flavor_probability` is
missing from the sources; the spec calls it the "global unconditional flavor
frequency", i.e. each flavor's share of all observations. -/
def flavor_probability (df : List FlavorEvent) (f : String) : ℚ :=
  (countTitle df f : ℚ) / (df.length : ℚ)

/-- Modelled from the spec: `analytics.markov.transition_matrix` is missing
from the sources; the spec describes one global first-order matrix "fit once
across all stores' consecutive-day pairs".  We keep the list of
(yesterday_title, today_title) pairs over same-store events one day apart; the
matrix rows are recovered by `tmRow`. -/
def transitionPairs (df : List FlavorEvent) : List (String × String) :=
  df.flatMap (fun r1 =>
    (df.filter (fun r2 => r2.store_slug == r1.store_slug
        && r2.flavor_date == r1.flavor_date + 1)).map (fun r2 => (r1.title, r2.title)))

/-- Successor titles of `y` in the global transition-pair list. -/
def tmSucc (pairs : List (String × String)) (y : String) : List String :=
  (pairs.filter (fun p => p.1 == y)).map (·.2)

/-- Modelled from the spec: row `y` of the row-normalized global transition
matrix, `P(f | y)`, reindexed over the vocabulary with fill value 0. -/
def tmRow (pairs : List (String × String)) (y f : String) : ℚ :=
  (((tmSucc pairs y).count f : ℚ)) / ((tmSucc pairs y).length : ℚ)

/-- Fitted state of `MarkovRecencyModel`: weights, the training DataFrame, the
frozen vocabulary, and the global transition matrix computed at `fit` time. -/
structure MarkovRecencyModel where
  markov_weight : ℚ
  recency_weight : ℚ
  df : List FlavorEvent
  all_flavors : List String
  tm : List (String × String)

/-- `MarkovRecencyModel().fit(df)` with the default weights. -/
def MarkovRecencyModel.fit (df : List FlavorEvent) : MarkovRecencyModel :=
  ⟨0.6, 0.4, df, sortedUnique (df.map (·.title)), transitionPairs df⟩

/-- The Markov component of `MarkovRecencyModel.predict_proba`: the
transition row of yesterday's flavor when known and present in the matrix
index, otherwise the global frequency fallback. -/
def MarkovRecencyModel.markov_probs (m : MarkovRecencyModel)
    (historical : List FlavorEvent) (date : Int) : String → ℚ :=
  let yesterday := date - 1
  let yesterday_row := historical.filter (fun r => r.flavor_date == yesterday)
  match yesterday_row.head? with
  | some r0 =>
    if (tmSucc m.tm r0.title).length ≠ 0 then fun f => tmRow m.tm r0.title f
    else fun f => flavor_probability m.df f
  | none => fun f => flavor_probability m.df f

/-- The recency component of `MarkovRecencyModel.predict_proba`: the shared
overdue-ratio formula over the qualifying history, or the zero Series when
the history is empty. -/
def MarkovRecencyModel.recency_scores (m : MarkovRecencyModel)
    (historical : List FlavorEvent) (date : Int) : String → ℚ :=
  if historical.length ≠ 0 then fun f => overdue_ratio historical date f
  else fun _ => 0

/-- The combined per-flavor score of `MarkovRecencyModel.predict_proba`. -/
def MarkovRecencyModel.scores (m : MarkovRecencyModel)
    (historical : List FlavorEvent) (date : Int) (f : String) : ℚ :=
  m.markov_weight * m.markov_probs historical date f
  + m.recency_weight * m.recency_scores historical date f

/-- `MarkovRecencyModel.predict_proba`, continued: the blended score Series
over the vocabulary, renormalized when the total is positive. -/
def MarkovRecencyModel.predict_proba (m : MarkovRecencyModel)
    (store_slug : String) (date : Int) : List (String × ℚ) :=
  let historical := storeHistorical m.df store_slug date
  normalizeOrId m.all_flavors (m.scores historical date)

/-- Python whitespace, as stripped by `str.strip()` (ASCII range). -/
def isPyWhitespace (c : Char) : Bool :=
  c == ' ' || c == '\t' || c == '\n' || c == '\r' || c == '\x0b' || c == '\x0c'

/-- Python `str.strip()`: drop leading and trailing whitespace. -/
def pyStrip (s : String) : String :=
  String.mk (((s.data.dropWhile isPyWhitespace).reverse.dropWhile isPyWhitespace).reverse)

/-- Python `str.lower()` (ASCII case mapping). -/
def pyLower (s : String) : String :=
  String.mk (s.data.map Char.toLower)

/-- `normalize_for_match`: lowercase and strip whitespace for fuzzy flavor
matching (`flavor.strip().lower()`). -/
def normalize_for_match (flavor : String) : String :=
  pyLower (pyStrip flavor)

/-- A prediction entry as read by the accuracy evaluator: a dict with a
`flavor` key and an optional `probability` key (read via
`.get("probability", 0.0)`). -/
structure PredDocEntry where
  flavor : String
  probability : Option ℚ
deriving DecidableEq, Repr

/-- Result of `evaluate_forecast_day`. -/
structure DayEval where
  top_1_hit : Bool
  top_5_hit : Bool
  rank : Option Nat
  log_loss : Option ℝ

/-- The clamped log-loss, `-log(max(p, 1e-15))`, over the exact rationals. -/
noncomputable def negLogClamped (p : ℚ) : ℝ :=
  -Real.log (max (p : ℝ) (1 / 10 ^ 15))

/-- `evaluate_forecast_day`: 1-based rank of the first normalized match,
top-1/top-5 flags, and clamped log-loss of the matched probability. -/
noncomputable def evaluate_forecast_day (predictions : List PredDocEntry)
    (actual_flavor : String) : DayEval :=
  let actual_norm := normalize_for_match actual_flavor
  let rank : Option Nat :=
    (predictions.findIdx? (fun p => normalize_for_match p.flavor == actual_norm)).map (· + 1)
  let top_1_hit := rank == some 1
  let top_5_hit := match rank with
    | none => false
    | some k => decide (k ≤ 5)
  let log_loss : Option ℝ := match rank with
    | none => none
    | some k =>
      let p := ((predictions.get? (k - 1)).map (fun pr => pr.probability.getD 0)).getD 0
      some (negLogClamped p)
  ⟨top_1_hit, top_5_hit, rank, log_loss⟩

/-- One entry of the `details` list of `evaluate_store_forecasts`. -/
structure DayDetail where
  date : String
  top_1_hit : Bool
  top_5_hit : Bool
  rank : Option Nat
  log_loss : Option ℝ

/-- A day entry of a stored multi-day forecast document, with the keys the
evaluator reads; a missing key is `none`. -/
structure DayDoc where
  date : Option String
  predictions : Option (List PredDocEntry)

/-- A stored forecast document, with the keys the evaluator reads; a missing
key is `none`. -/
structure ForecastDoc where
  days : Option (List DayDoc)
  predictions : Option (List PredDocEntry)
  target_date : Option String

/-- Result of `evaluate_store_forecasts`. -/
structure StoreEval where
  top_1_hit_rate : ℚ
  top_5_hit_rate : ℚ
  avg_log_loss : Option ℝ
  n_samples : Nat
  details : List DayDetail

/-- The effective day list of `evaluate_store_forecasts`: the `days` key, or,
when that is missing or empty, the single-day fallback synthesized from the
`predictions` and `target_date` keys. -/
def effectiveDays (doc : ForecastDoc) : List DayDoc :=
  let days := doc.days.getD []
  if days.isEmpty then
    let preds := doc.predictions.getD []
    let date := doc.target_date.getD ""
    if ¬preds.isEmpty ∧ date ≠ "" then [⟨some date, some preds⟩] else []
  else days

/-- The body of the per-day loop of `evaluate_store_forecasts`: skip a day
whose date string falls before the cutoff, is absent from the actuals map, or
whose predictions list is missing or empty; otherwise score it.
`datetime.now()` is embedded downstream as the explicit epoch-day parameter
`today`; dates are compared as strings, exactly as in the source. -/
noncomputable def evalDay (actuals : List (String × String)) (cutoff : String)
    (day : DayDoc) : Option DayDetail :=
  let date := day.date.getD ""
  if strLt date cutoff then none
  else match actuals.lookup date with
    | none => none
    | some actual =>
      let predictions := day.predictions.getD []
      if predictions.isEmpty then none
      else
        let r := evaluate_forecast_day predictions actual
        some ⟨date, r.top_1_hit, r.top_5_hit, r.rank, r.log_loss⟩

/-- `evaluate_store_forecasts`, continued: the skip-or-score loop over the
effective day list followed by aggregation. -/
noncomputable def evaluate_store_forecasts (forecast_data : ForecastDoc)
    (actuals : List (String × String)) (window_days : Int) (today : Int) : StoreEval :=
  let details := (effectiveDays forecast_data).filterMap
    (evalDay actuals (dateToString (today - window_days)))
  if details.length = 0 then ⟨0, 0, none, 0, []⟩
  else
    ⟨((details.filter (·.top_1_hit)).length : ℚ) / (details.length : ℚ),
      ((details.filter (·.top_5_hit)).length : ℚ) / (details.length : ℚ),
      if (details.filterMap (·.log_loss)).isEmpty then none
      else some ((details.filterMap (·.log_loss)).sum
        / ((details.filterMap (·.log_loss)).length : ℝ)),
      details.length, details⟩

/-- Round a rational to the nearest integer, ties to even — Python's `round`
and `format` semantics, idealised over ℚ. -/
def roundHalfEven (q : ℚ) : Int :=
  let f := ⌊q⌋
  let r := q - f
  if r < 1 / 2 then f
  else if 1 / 2 < r then f + 1
  else if f % 2 = 0 then f else f + 1

/-- Python `round(x, 4)`. -/
def round4 (q : ℚ) : ℚ :=
  (roundHalfEven (q * 10000) : ℚ) / 10000

/-- Python `f"{x:.0f}"`. -/
def fmt0f (q : ℚ) : String :=
  toString (roundHalfEven q)

/-- Python `str.title()`: uppercase every letter that follows a non-letter,
lowercase the rest. -/
def pyTitle (s : String) : String :=
  String.mk (s.data.foldl (fun (acc : List Char × Bool) c =>
    (acc.1 ++ [if acc.2 then c.toLower else c.toUpper], c.isAlpha)) ([], false)).1

/-- `strftime("%A")` weekday name from a pandas `dayofweek` number. -/
def dayName (d : Int) : String :=
  if d = 0 then "Monday" else if d = 1 then "Tuesday" else if d = 2 then "Wednesday"
  else if d = 3 then "Thursday" else if d = 4 then "Friday"
  else if d = 5 then "Saturday" else "Sunday"

/-- `Series.nlargest(n)`: the `n` largest entries in descending order of
value, ties broken by position (stable), as pandas `keep="first"` does. -/
def nlargestPairs (n : Nat) (l : List (String × ℚ)) : List (String × ℚ) :=
  (insertionSortBy (fun p q => decide (q.2 ≤ p.2)) l).take n

/-- A row of the `overdue_flavors` DataFrame (columns `title`, `days_since`,
`avg_gap`, `ratio`). -/
structure OverdueRow where
  title : String
  days_since : Int
  avg_gap : ℚ
  ratio : ℚ

/-- Modelled from the spec: `analytics.basic_metrics.overdue_flavors` is
missing from the sources.  Per the spec's OverdueFlavor data model and §4.2:
for each flavor served at least twice at the store before `as_of`, the days
since its last serving, its average historical gap, and their ratio; rows with
ratio ≥ 1.5, sorted descending by ratio. -/
def overdue_flavors (df : List FlavorEvent) (store_slug : String) (as_of : Int) :
    List OverdueRow :=
  let hist := storeHistorical df store_slug as_of
  let rows := (sortedUnique (hist.map (·.title))).filterMap (fun f =>
    let dates := (hist.filter (fun r => r.title == f)).map (·.flavor_date)
    if 2 ≤ dates.length then
      let ds := as_of - intListMax dates
      let gap : ℚ := ((intListMax dates - intListMin dates : Int) : ℚ) / ((dates.length : ℚ) - 1)
      let ratio := (ds : ℚ) / gap
      if 3 / 2 ≤ ratio then some ⟨f, ds, gap, ratio⟩ else none
    else none)
  insertionSortBy (fun a b => decide (b.ratio ≤ a.ratio)) rows

/-- A serialized prediction entry of a generated forecast document:
`{"flavor": f, "probability": round(float(p), 4)}`. -/
structure PredEntry where
  flavor : String
  probability : ℚ
deriving DecidableEq, Repr

/-- An overdue entry of a generated forecast document. -/
structure OverdueEntry where
  flavor : String
  days_since : Int
  avg_gap : ℚ
deriving DecidableEq, Repr

/-- The context dict built by `build_forecast_context`. -/
structure ForecastContext where
  store_slug : String
  store_name : String
  date : String
  day_of_week : String
  predictions : List PredEntry
  overdue_flavors : List OverdueEntry
  recent_history : List (String × String)

/-- `build_forecast_context`: top-N predictions, top-K overdue flavors, and
the 3 most recent served flavors strictly before `date`.  The model argument
is its `predict_proba` bound method. -/
def build_forecast_context (predict : String → Int → List (String × ℚ))
    (df : List FlavorEvent) (store_slug : String) (date : Int)
    (n_top : Nat := 5) (n_overdue : Nat := 3) : ForecastContext :=
  let proba := predict store_slug date
  let top := nlargestPairs n_top proba
  let predictions := top.map (fun p => PredEntry.mk p.1 (round4 p.2))
  let overdue_list := ((overdue_flavors df store_slug date).take n_overdue).map
    (fun r => OverdueEntry.mk r.title r.days_since r.avg_gap)
  let store_df := storeHistorical df store_slug date
  let recent := (insertionSortBy (fun a b => decide (b.flavor_date ≤ a.flavor_date)) store_df).take 3
  ⟨store_slug, pyTitle (store_slug.replace "-" " "), dateToString date,
    dayName (dayOfWeek date), predictions, overdue_list,
    recent.map (fun r => (dateToString r.flavor_date, r.title))⟩

/-- `format_forecast_template`: the deterministic prose template. -/
def format_forecast_template (context : ForecastContext) : String :=
  let store := context.store_name
  let date := context.date
  let dow := context.day_of_week
  let preds := context.predictions
  let overdue := context.overdue_flavors
  let lines :=
    match preds with
    | [] => ["**Flavor Forecast for " ++ store ++ "** (" ++ date ++ ")", "",
             "Insufficient data for prediction."]
    | top :: rest =>
      let top_str := match rest with
        | [] => top.flavor
        | runner_up :: _ => top.flavor ++ " or " ++ runner_up.flavor
      let base := ["**" ++ dow ++ "'s Flavor Forecast for " ++ store ++ "** (" ++ date ++ ")",
                   "", "Estimated outlook: " ++ top_str ++ "."]
      if preds.length > 2 then
        base ++ ["Also possible: " ++ String.intercalate ", " ((preds.drop 2).map (·.flavor)) ++ "."]
      else base
  let lines := if ¬overdue.isEmpty then
      lines ++ [""] ++ overdue.map (fun o =>
        "Watch for **" ++ o.flavor ++ "** — last served " ++ toString o.days_since
          ++ " days ago (typically every " ++ fmt0f o.avg_gap ++ " days).")
    else lines
  String.intercalate "\n" lines

/-- The single-day forecast document produced by `generate_forecast_json`. -/
structure ForecastJson where
  store_slug : String
  date : String
  predictions : List PredEntry
  total_probability : ℚ
  overdue_flavors : List OverdueEntry
  prose : String

/-- `generate_forecast_json`: the single-day structured document. -/
def generate_forecast_json (predict : String → Int → List (String × ℚ))
    (df : List FlavorEvent) (store_slug : String) (date : Int)
    (n_predictions : Nat := 10) : ForecastJson :=
  let proba := predict store_slug date
  let predictions := (nlargestPairs n_predictions proba).map
    (fun p => PredEntry.mk p.1 (round4 p.2))
  let context := build_forecast_context predict df store_slug date
  ⟨store_slug, dateToString date, predictions, round4 (proba.map (·.2)).sum,
    context.overdue_flavors, format_forecast_template context⟩

/-- A multi-day prediction entry, carrying its certainty tier. -/
structure TieredPred where
  flavor : String
  probability : ℚ
  certainty_tier : String
deriving DecidableEq, Repr

/-- One day entry of a multi-day forecast document. -/
structure MultiDayEntry where
  date : String
  predictions : List TieredPred
  overdue_flavors : List OverdueEntry
  prose : String

/-- The wrapper document produced by `generate_multiday_forecast_json`. -/
structure MultiDayDoc where
  store_slug : String
  generated_at : String
  history_depth : Nat
  days : List MultiDayEntry

/-- `generate_multiday_forecast_json`: single-day generation repeated over
`n_days` consecutive dates from `start_date`, every prediction tagged with the
`estimated` certainty tier.  `datetime.now().isoformat()` is embedded as the
explicit `now` argument. -/
def generate_multiday_forecast_json (predict : String → Int → List (String × ℚ))
    (df : List FlavorEvent) (store_slug : String) (start_date : Int)
    (n_days : Nat := 7) (n_predictions : Nat := 10) (now : String := "") : MultiDayDoc :=
  let history_depth := (df.filter (fun r => r.store_slug == store_slug)).length
  let days := (List.range n_days).map (fun (i : Nat) =>
    let single := generate_forecast_json predict df store_slug (start_date + (i : Int))
      n_predictions
    MultiDayEntry.mk single.date
      (single.predictions.map (fun p => TieredPred.mk p.flavor p.probability "estimated"))
      single.overdue_flavors single.prose)
  ⟨store_slug, now, history_depth, days⟩

lemma orderedInsertBy_perm {α : Type} (le : α → α → Bool) (a : α) (l : List α) :
    (orderedInsertBy le a l).Perm (a :: l) := by
  induction l with
  | nil => exact List.Perm.refl _
  | cons b bs ih =>
    unfold orderedInsertBy
    split
    · exact List.Perm.refl _
    · exact (List.Perm.cons b ih).trans (List.Perm.swap a b bs)

lemma insertionSortBy_perm {α : Type} (le : α → α → Bool) (l : List α) :
    (insertionSortBy le l).Perm l := by
  induction l with
  | nil => exact List.Perm.refl _
  | cons a as ih =>
    exact (orderedInsertBy_perm le a (insertionSortBy le as)).trans (List.Perm.cons a ih)

lemma mem_sortedUnique {l : List String} {a : String} : a ∈ sortedUnique l ↔ a ∈ l := by
  unfold sortedUnique
  rw [List.mem_dedup]
  exact (insertionSortBy_perm strLe l).mem_iff

lemma sortedUnique_nodup (l : List String) : (sortedUnique l).Nodup :=
  List.nodup_dedup _

lemma sortedUnique_ne_nil {l : List String} (h : l ≠ []) : sortedUnique l ≠ [] := by
  intro hs
  rcases List.exists_mem_of_ne_nil l h with ⟨a, ha⟩
  have := mem_sortedUnique.mpr ha
  simp [hs] at this

lemma foldl_max_lt {t : List Int} {a d : Int} (ha : a < d) (ht : ∀ x ∈ t, x < d) :
    t.foldl max a < d := by
  induction t generalizing a with
  | nil => exact ha
  | cons b t ih =>
    exact ih (max_lt ha (ht b (List.mem_cons_self b t))) (fun x hx => ht x (List.mem_cons_of_mem _ hx))

lemma intListMax_lt {l : List Int} {d : Int} (hne : l ≠ []) (h : ∀ x ∈ l, x < d) :
    intListMax l < d := by
  match l with
  | [] => exact absurd rfl hne
  | a :: t =>
    exact foldl_max_lt (h a (List.mem_cons_self a t)) (fun x hx => h x (List.mem_cons_of_mem _ hx))

lemma storeHistorical_dates {df : List FlavorEvent} {s : String} {d : Int} :
    ∀ r ∈ storeHistorical df s d, r.store_slug = s ∧ r.flavor_date < d := by
  intro r hr
  have := List.mem_filter.mp hr
  have hb := this.2
  simp only [Bool.and_eq_true, beq_iff_eq, decide_eq_true_eq] at hb
  exact hb

lemma storeHistorical_sublist {df : List FlavorEvent} {s : String} {d : Int} :
    ∀ r ∈ storeHistorical df s d, r ∈ df := by
  intro r hr
  exact (List.mem_filter.mp hr).1

lemma sum_map_add_distrib (v : List String) (g h : String → ℚ) :
    (v.map (fun f => g f + h f)).sum = (v.map g).sum + (v.map h).sum := by
  induction v with
  | nil => simp
  | cons a t ih => simp [ih]; ring

lemma sum_map_div_distrib (v : List String) (g : String → ℚ) (c : ℚ) :
    (v.map (fun f => g f / c)).sum = (v.map g).sum / c := by
  induction v with
  | nil => simp
  | cons a t ih => simp [ih]; ring

lemma sum_indicator_eq_one {v : List String} {a : String} (hv : v.Nodup) (ha : a ∈ v) :
    (v.map (fun f => if a = f then (1 : ℕ) else 0)).sum = 1 := by
  induction v with
  | nil => cases ha
  | cons b t ih =>
    rw [List.nodup_cons] at hv
    by_cases hab : a = b
    · subst hab
      have hz : (t.map (fun f => if a = f then (1 : ℕ) else 0)).sum = 0 := by
        apply List.sum_eq_zero
        intro x hx
        rcases List.mem_map.mp hx with ⟨f, hf, hfx⟩
        have hne : a ≠ f := fun e => hv.1 (e ▸ hf)
        simpa [hne] using hfx.symm
      simp [hz]
    · have hat : a ∈ t := by
        rcases List.mem_cons.mp ha with h | h
        · exact absurd h hab
        · exact h
      simp [hab, ih hv.2 hat]

lemma sum_count_eq_length {l v : List String} (hv : v.Nodup) (hsub : ∀ a ∈ l, a ∈ v) :
    (v.map (fun f => l.count f)).sum = l.length := by
  induction l with
  | nil => simp
  | cons a t ih =>
    have h1 : v.map (fun f => (a :: t).count f)
        = v.map (fun f => t.count f + (if a = f then 1 else 0)) := by
      apply List.map_congr_left
      intro f _
      rw [List.count_cons]
      simp [beq_iff_eq]
    have h2 : ∀ (w : List String), (w.map (fun f => t.count f + (if a = f then 1 else 0))).sum
        = (w.map (fun f => t.count f)).sum + (w.map (fun f => if a = f then (1 : ℕ) else 0)).sum := by
      intro w
      induction w with
      | nil => simp
      | cons b u ihw => simp at ihw ⊢; omega
    rw [h1, h2, ih (fun x hx => hsub x (List.mem_cons_of_mem _ hx)),
      sum_indicator_eq_one hv (hsub a (List.mem_cons_self a t))]
    simp [Nat.add_comm]

lemma sum_count_cast (l v : List String) :
    (v.map (fun f => (l.count f : ℚ))).sum = ((v.map (fun f => l.count f)).sum : ℚ) := by
  induction v with
  | nil => simp
  | cons b w ihv =>
    simp only [List.map_cons, List.sum_cons, ihv]
    push_cast
    ring

lemma sum_count_div_eq_one {l v : List String} (hv : v.Nodup) (hsub : ∀ a ∈ l, a ∈ v)
    (hl : l ≠ []) :
    (v.map (fun f => (l.count f : ℚ) / (l.length : ℚ))).sum = 1 := by
  rw [sum_map_div_distrib]
  rw [sum_count_cast, sum_count_eq_length hv hsub]
  have : (l.length : ℚ) ≠ 0 := by
    simpa using List.length_pos.mpr hl |>.ne'
  exact div_self this

lemma countTitle_eq_count_map (hist : List FlavorEvent) (f : String) :
    countTitle hist f = (hist.map (·.title)).count f := by
  unfold countTitle
  rw [List.count, List.countP_eq_length_filter, List.filter_map, List.length_map]
  rfl

lemma countTitle_ne_zero_iff {hist : List FlavorEvent} {f : String} :
    countTitle hist f ≠ 0 ↔ hist.filter (fun r => r.title == f) ≠ [] := by
  unfold countTitle
  simp [List.length_eq_zero]

lemma lastSeen_lt {hist : List FlavorEvent} {date : Int} {f : String}
    (hd : ∀ r ∈ hist, r.flavor_date < date) (hc : countTitle hist f ≠ 0) :
    lastSeen hist f < date := by
  unfold lastSeen
  apply intListMax_lt
  · simp only [ne_eq, List.map_eq_nil_iff]
    exact countTitle_ne_zero_iff.mp hc
  · intro x hx
    rcases List.mem_map.mp hx with ⟨r, hr, hrx⟩
    exact hrx ▸ hd r (List.mem_filter.mp hr).1

lemma overdue_ratio_nonneg (hist : List FlavorEvent) (date : Int) (f : String)
    (hd : ∀ r ∈ hist, r.flavor_date < date) :
    0 ≤ overdue_ratio hist date f := by
  unfold overdue_ratio
  split
  · exact le_refl 0
  · next hc =>
    have hexp : (0 : ℚ) < max 7 ((totalSpan hist : ℚ) / ((max (countTitle hist f) 2 : ℚ) - 1)) :=
      lt_of_lt_of_le (by norm_num) (le_max_left _ _)
    have hds : (0 : ℚ) ≤ ((date - lastSeen hist f : Int) : ℚ) := by
      exact_mod_cast Int.sub_nonneg.mpr (lastSeen_lt hd hc).le
    have h1 : (0 : ℚ) ≤ min (((date - lastSeen hist f : Int) : ℚ) /
        max 7 ((totalSpan hist : ℚ) / ((max (countTitle hist f) 2 : ℚ) - 1))) 3 :=
      le_min (div_nonneg hds hexp.le) (by norm_num)
    positivity

lemma overdue_ratio_le_one (hist : List FlavorEvent) (date : Int) (f : String) :
    overdue_ratio hist date f ≤ 1 := by
  unfold overdue_ratio
  split
  · norm_num
  · have h1 : min (((date - lastSeen hist f : Int) : ℚ) /
        max 7 ((totalSpan hist : ℚ) / ((max (countTitle hist f) 2 : ℚ) - 1))) 3 ≤ 3 :=
      min_le_right _ _
    linarith

lemma freqProb_nonneg (hist : List FlavorEvent) (f : String) : 0 ≤ freqProb hist f := by
  unfold freqProb
  positivity

lemma dow_bonus_nonneg (hist : List FlavorEvent) (t : Int) (f : String) :
    0 ≤ dow_bonus hist t f := by
  unfold dow_bonus
  split_ifs <;> positivity

lemma seasonal_bonus_nonneg (hist : List FlavorEvent) (m : Int) (f : String) :
    0 ≤ seasonal_bonus hist m f := by
  unfold seasonal_bonus
  split_ifs <;> positivity

lemma flavor_probability_nonneg (df : List FlavorEvent) (f : String) :
    0 ≤ flavor_probability df f := by
  unfold flavor_probability
  positivity

lemma tmRow_nonneg (pairs : List (String × String)) (y f : String) : 0 ≤ tmRow pairs y f := by
  unfold tmRow
  positivity

lemma sum_freqProb {hist : List FlavorEvent} {v : List String} (hv : v.Nodup)
    (hsub : ∀ r ∈ hist, r.title ∈ v) (hne : hist ≠ []) :
    (v.map (fun f => freqProb hist f)).sum = 1 := by
  have hmap : v.map (fun f => freqProb hist f)
      = v.map (fun f => ((hist.map (·.title)).count f : ℚ) / ((hist.map (·.title)).length : ℚ)) := by
    apply List.map_congr_left
    intro f _
    unfold freqProb
    rw [countTitle_eq_count_map, List.length_map]
  rw [hmap]
  apply sum_count_div_eq_one hv
  · intro a ha
    rcases List.mem_map.mp ha with ⟨r, hr, hra⟩
    exact hra ▸ hsub r hr
  · simp [List.map_eq_nil_iff, hne]

lemma sum_flavor_probability {df : List FlavorEvent} {v : List String} (hv : v.Nodup)
    (hsub : ∀ r ∈ df, r.title ∈ v) (hne : df ≠ []) :
    (v.map (fun f => flavor_probability df f)).sum = 1 :=
  sum_freqProb hv hsub hne

lemma tmSucc_subset_titles (df : List FlavorEvent) (y : String) :
    ∀ a ∈ tmSucc (transitionPairs df) y, a ∈ df.map (·.title) := by
  intro a ha
  unfold tmSucc at ha
  rcases List.mem_map.mp ha with ⟨p, hp, hpa⟩
  have hp' := (List.mem_filter.mp hp).1
  unfold transitionPairs at hp'
  rcases List.mem_flatMap.mp hp' with ⟨r1, _, hr1⟩
  rcases List.mem_map.mp hr1 with ⟨r2, hr2, hp2⟩
  refine List.mem_map.mpr ⟨r2, (List.mem_filter.mp hr2).1, ?_⟩
  rw [← hp2] at hpa
  simpa using hpa

lemma sum_tmRow {df : List FlavorEvent} {v : List String} {y : String} (hv : v.Nodup)
    (hsub : ∀ r ∈ df, r.title ∈ v)
    (hy : (tmSucc (transitionPairs df) y).length ≠ 0) :
    (v.map (fun f => tmRow (transitionPairs df) y f)).sum = 1 := by
  unfold tmRow
  apply sum_count_div_eq_one hv
  · intro a ha
    rcases List.mem_map.mp (tmSucc_subset_titles df y a ha) with ⟨r, hr, hra⟩
    exact hra ▸ hsub r hr
  · simpa [← List.length_eq_zero] using hy

lemma uniformDist_fst (v : List String) : (uniformDist v).map Prod.fst = v := by
  unfold uniformDist
  rw [List.map_map]
  exact List.map_id v

lemma uniformDist_sum {v : List String} (hv : v ≠ []) :
    ((uniformDist v).map Prod.snd).sum = 1 := by
  unfold uniformDist
  rw [List.map_map]
  have : (Prod.snd ∘ fun f => (f, 1 / (v.length : ℚ))) = Function.const String (1 / (v.length : ℚ)) := rfl
  rw [this, List.map_const, List.sum_replicate, nsmul_eq_mul]
  have hlen : (v.length : ℚ) ≠ 0 := by
    simpa using List.length_pos.mpr hv |>.ne'
  field_simp

lemma uniformDist_nonneg (v : List String) : ∀ x ∈ uniformDist v, 0 ≤ x.2 := by
  intro x hx
  rcases List.mem_map.mp hx with ⟨f, _, hfx⟩
  rw [← hfx]
  positivity

lemma normalizeOrId_fst (v : List String) (scores : String → ℚ) :
    (normalizeOrId v scores).map Prod.fst = v := by
  unfold normalizeOrId
  split <;> (rw [List.map_map]; exact List.map_id v)

lemma normalizeOrId_sum_one {v : List String} {scores : String → ℚ}
    (h : 0 < (v.map scores).sum) :
    ((normalizeOrId v scores).map Prod.snd).sum = 1 := by
  unfold normalizeOrId
  rw [if_pos h, List.map_map]
  have heq : (Prod.snd ∘ fun f => (f, scores f / (v.map scores).sum))
      = fun f => scores f / (v.map scores).sum := rfl
  rw [heq, sum_map_div_distrib]
  exact div_self h.ne'

lemma normalizeOrId_nonneg {v : List String} {scores : String → ℚ}
    (h : ∀ f ∈ v, 0 ≤ scores f) : ∀ x ∈ normalizeOrId v scores, 0 ≤ x.2 := by
  unfold normalizeOrId
  split
  · next ht =>
    intro x hx
    rcases List.mem_map.mp hx with ⟨f, hf, hfx⟩
    rw [← hfx]
    exact div_nonneg (h f hf) ht.le
  · intro x hx
    rcases List.mem_map.mp hx with ⟨f, hf, hfx⟩
    rw [← hfx]
    exact h f hf

lemma titles_subset_sortedUnique (df : List FlavorEvent) :
    ∀ r ∈ df, r.title ∈ sortedUnique (df.map (·.title)) := by
  intro r hr
  exact mem_sortedUnique.mpr (List.mem_map_of_mem _ hr)

lemma hist_titles_subset {df : List FlavorEvent} {s : String} {d : Int} :
    ∀ r ∈ storeHistorical df s d, r.title ∈ sortedUnique (df.map (·.title)) :=
  fun r hr => titles_subset_sortedUnique df r (storeHistorical_sublist r hr)

lemma freq_predict_of_empty {df : List FlavorEvent} {s : String} {d : Int}
    (h : storeHistorical df s d = []) :
    (FrequencyRecencyModel.fit df).predict_proba s d
      = uniformDist (sortedUnique (df.map (·.title))) := by
  unfold FrequencyRecencyModel.predict_proba FrequencyRecencyModel.fit
  simp [h]

lemma freq_predict_of_nonempty {df : List FlavorEvent} {s : String} {d : Int}
    (h : storeHistorical df s d ≠ []) :
    (FrequencyRecencyModel.fit df).predict_proba s d
      = normalizeOrId (sortedUnique (df.map (·.title)))
          ((FrequencyRecencyModel.fit df).scores (storeHistorical df s d) d) := by
  unfold FrequencyRecencyModel.predict_proba
  simp only [FrequencyRecencyModel.fit]
  rw [if_neg]
  simpa [List.length_eq_zero] using h

lemma freq_scores_nonneg {df : List FlavorEvent} {s : String} {d : Int} (f : String) :
    0 ≤ (FrequencyRecencyModel.fit df).scores (storeHistorical df s d) d f := by
  unfold FrequencyRecencyModel.scores
  simp only [FrequencyRecencyModel.fit]
  have h1 := freqProb_nonneg (storeHistorical df s d) f
  have h2 := overdue_ratio_nonneg (storeHistorical df s d) d f
    (fun r hr => (storeHistorical_dates r hr).2)
  have h3 := dow_bonus_nonneg (storeHistorical df s d) (dayOfWeek d) f
  have h4 := seasonal_bonus_nonneg (storeHistorical df s d) (monthOf d) f
  linarith

lemma freq_total_pos {df : List FlavorEvent} {s : String} {d : Int}
    (hne : storeHistorical df s d ≠ []) :
    0 < ((sortedUnique (df.map (·.title))).map
        ((FrequencyRecencyModel.fit df).scores (storeHistorical df s d) d)).sum := by
  have hv := sortedUnique_nodup (df.map (·.title))
  have hexp : ((sortedUnique (df.map (·.title))).map
      ((FrequencyRecencyModel.fit df).scores (storeHistorical df s d) d)).sum
      = 0.6 * ((sortedUnique (df.map (·.title))).map (fun f => freqProb (storeHistorical df s d) f)).sum
      + 0.2 * ((sortedUnique (df.map (·.title))).map (fun f => overdue_ratio (storeHistorical df s d) d f)).sum
      + 0.1 * ((sortedUnique (df.map (·.title))).map (fun f => dow_bonus (storeHistorical df s d) (dayOfWeek d) f)).sum
      + 0.1 * ((sortedUnique (df.map (·.title))).map (fun f => seasonal_bonus (storeHistorical df s d) (monthOf d) f)).sum := by
    unfold FrequencyRecencyModel.scores
    simp only [FrequencyRecencyModel.fit]
    rw [show (fun f => 0.6 * freqProb (storeHistorical df s d) f
        + 0.2 * overdue_ratio (storeHistorical df s d) d f
        + 0.1 * dow_bonus (storeHistorical df s d) (dayOfWeek d) f
        + 0.1 * seasonal_bonus (storeHistorical df s d) (monthOf d) f)
      = (fun f => ((0.6 * freqProb (storeHistorical df s d) f
        + 0.2 * overdue_ratio (storeHistorical df s d) d f)
        + 0.1 * dow_bonus (storeHistorical df s d) (dayOfWeek d) f)
        + 0.1 * seasonal_bonus (storeHistorical df s d) (monthOf d) f) from rfl]
    rw [sum_map_add_distrib, sum_map_add_distrib, sum_map_add_distrib]
    rw [List.sum_map_mul_left, List.sum_map_mul_left, List.sum_map_mul_left, List.sum_map_mul_left]
  rw [hexp, sum_freqProb hv hist_titles_subset hne]
  have hO : 0 ≤ ((sortedUnique (df.map (·.title))).map
      (fun f => overdue_ratio (storeHistorical df s d) d f)).sum := by
    apply List.sum_nonneg
    intro x hx
    rcases List.mem_map.mp hx with ⟨f, _, hfx⟩
    exact hfx ▸ overdue_ratio_nonneg (storeHistorical df s d) d f
      (fun r hr => (storeHistorical_dates r hr).2)
  have hD : 0 ≤ ((sortedUnique (df.map (·.title))).map
      (fun f => dow_bonus (storeHistorical df s d) (dayOfWeek d) f)).sum := by
    apply List.sum_nonneg
    intro x hx
    rcases List.mem_map.mp hx with ⟨f, _, hfx⟩
    exact hfx ▸ dow_bonus_nonneg _ _ f
  have hS : 0 ≤ ((sortedUnique (df.map (·.title))).map
      (fun f => seasonal_bonus (storeHistorical df s d) (monthOf d) f)).sum := by
    apply List.sum_nonneg
    intro x hx
    rcases List.mem_map.mp hx with ⟨f, _, hfx⟩
    exact hfx ▸ seasonal_bonus_nonneg _ _ f
  linarith

lemma markov_probs_nonneg (m : MarkovRecencyModel) (hist : List FlavorEvent) (date : Int)
    (f : String) : 0 ≤ m.markov_probs hist date f := by
  unfold MarkovRecencyModel.markov_probs
  cases h : (hist.filter (fun r => r.flavor_date == date - 1)).head? with
  | none =>
    simp only [h]
    exact flavor_probability_nonneg m.df f
  | some r0 =>
    simp only [h]
    split_ifs
    · exact tmRow_nonneg m.tm r0.title f
    · exact flavor_probability_nonneg m.df f

lemma markov_probs_sum_one {df : List FlavorEvent} (hist : List FlavorEvent) (date : Int)
    (hdf : df ≠ []) :
    ((sortedUnique (df.map (·.title))).map
      ((MarkovRecencyModel.fit df).markov_probs hist date)).sum = 1 := by
  have hv := sortedUnique_nodup (df.map (·.title))
  unfold MarkovRecencyModel.markov_probs
  simp only [MarkovRecencyModel.fit]
  cases h : (hist.filter (fun r => r.flavor_date == date - 1)).head? with
  | none =>
    simp only [h]
    exact sum_flavor_probability hv (titles_subset_sortedUnique df) hdf
  | some r0 =>
    simp only [h]
    split_ifs with hlen
    · exact sum_tmRow hv (titles_subset_sortedUnique df) hlen
    · exact sum_flavor_probability hv (titles_subset_sortedUnique df) hdf

lemma markov_recency_nonneg (m : MarkovRecencyModel) (df : List FlavorEvent) (s : String)
    (d : Int) (f : String) : 0 ≤ m.recency_scores (storeHistorical df s d) d f := by
  unfold MarkovRecencyModel.recency_scores
  split_ifs
  · exact overdue_ratio_nonneg (storeHistorical df s d) d f
      (fun r hr => (storeHistorical_dates r hr).2)
  · exact le_refl 0

lemma markov_scores_nonneg (df : List FlavorEvent) (s : String) (d : Int) (f : String) :
    0 ≤ (MarkovRecencyModel.fit df).scores (storeHistorical df s d) d f := by
  unfold MarkovRecencyModel.scores
  have h1 := markov_probs_nonneg (MarkovRecencyModel.fit df) (storeHistorical df s d) d f
  have h2 := markov_recency_nonneg (MarkovRecencyModel.fit df) df s d f
  have hw1 : (MarkovRecencyModel.fit df).markov_weight = 0.6 := rfl
  have hw2 : (MarkovRecencyModel.fit df).recency_weight = 0.4 := rfl
  rw [hw1, hw2]
  linarith

lemma markov_total_pos {df : List FlavorEvent} (s : String) (d : Int) (hdf : df ≠ []) :
    0 < ((sortedUnique (df.map (·.title))).map
      ((MarkovRecencyModel.fit df).scores (storeHistorical df s d) d)).sum := by
  have hmap : (sortedUnique (df.map (·.title))).map
      ((MarkovRecencyModel.fit df).scores (storeHistorical df s d) d)
      = (sortedUnique (df.map (·.title))).map (fun f =>
        0.6 * (MarkovRecencyModel.fit df).markov_probs (storeHistorical df s d) d f
        + 0.4 * (MarkovRecencyModel.fit df).recency_scores (storeHistorical df s d) d f) := by
    apply List.map_congr_left
    intro f _
    rfl
  rw [hmap, sum_map_add_distrib, List.sum_map_mul_left, List.sum_map_mul_left,
    markov_probs_sum_one (storeHistorical df s d) d hdf]
  have hR : 0 ≤ ((sortedUnique (df.map (·.title))).map
      (fun f => (MarkovRecencyModel.fit df).recency_scores (storeHistorical df s d) d f)).sum := by
    apply List.sum_nonneg
    intro x hx
    rcases List.mem_map.mp hx with ⟨f, _, hfx⟩
    exact hfx ▸ markov_recency_nonneg (MarkovRecencyModel.fit df) df s d f
  linarith

lemma markov_predict_eq (df : List FlavorEvent) (s : String) (d : Int) :
    (MarkovRecencyModel.fit df).predict_proba s d
      = normalizeOrId (sortedUnique (df.map (·.title)))
          ((MarkovRecencyModel.fit df).scores (storeHistorical df s d) d) := rfl

lemma markov_predict_of_empty {df : List FlavorEvent} {s : String} {d : Int}
    (hdf : df ≠ []) (h : storeHistorical df s d = []) :
    (MarkovRecencyModel.fit df).predict_proba s d
      = (sortedUnique (df.map (·.title))).map (fun f => (f, flavor_probability df f)) := by
  have hv := sortedUnique_nodup (df.map (·.title))
  have hfun : (MarkovRecencyModel.fit df).scores (storeHistorical df s d) d
      = fun f => 0.6 * flavor_probability df f := by
    funext f
    rw [h]
    unfold MarkovRecencyModel.scores MarkovRecencyModel.markov_probs
      MarkovRecencyModel.recency_scores
    simp only [MarkovRecencyModel.fit, List.filter_nil, List.head?_nil, List.length_nil]
    norm_num
  rw [markov_predict_eq, hfun]
  unfold normalizeOrId
  have hsum : ((sortedUnique (df.map (·.title))).map
      (fun f => 0.6 * flavor_probability df f)).sum = 0.6 := by
    rw [List.sum_map_mul_left, sum_flavor_probability hv (titles_subset_sortedUnique df) hdf,
      mul_one]
  rw [hsum, if_pos (by norm_num : (0 : ℚ) < 0.6)]
  apply List.map_congr_left
  intro f _
  rw [mul_div_cancel_left₀ _ (by norm_num : (0.6 : ℚ) ≠ 0)]

lemma efd_rank (predictions : List PredDocEntry) (actual : String) :
    (evaluate_forecast_day predictions actual).rank
      = (predictions.findIdx? (fun p =>
          normalize_for_match p.flavor == normalize_for_match actual)).map (· + 1) := rfl

lemma efd_top1 (predictions : List PredDocEntry) (actual : String) :
    (evaluate_forecast_day predictions actual).top_1_hit
      = ((evaluate_forecast_day predictions actual).rank == some 1) := rfl

lemma efd_top5 (predictions : List PredDocEntry) (actual : String) :
    (evaluate_forecast_day predictions actual).top_5_hit
      = (match (evaluate_forecast_day predictions actual).rank with
          | none => false
          | some k => decide (k ≤ 5)) := rfl

lemma efd_log_loss (predictions : List PredDocEntry) (actual : String) :
    (evaluate_forecast_day predictions actual).log_loss
      = (match (evaluate_forecast_day predictions actual).rank with
          | none => none
          | some k => some (negLogClamped
              (((predictions.get? (k - 1)).map (fun pr => pr.probability.getD 0)).getD 0))) := rfl

lemma findIdx?_cons_map {α : Type} (p : α → Bool) (a : α) (l : List α) :
    (a :: l).findIdx? p = if p a then some 0 else (l.findIdx? p).map (· + 1) := by
  simp [List.findIdx?_cons]

lemma findIdx?_some_spec {α : Type} (p : α → Bool) (l : List α) (i : Nat)
    (h : l.findIdx? p = some i) :
    ∃ x, l.get? i = some x ∧ p x = true
      ∧ ∀ j, j < i → ∀ y, l.get? j = some y → p y = false := by
  induction l generalizing i with
  | nil => simp [List.findIdx?_nil] at h
  | cons a t ih =>
    rw [findIdx?_cons_map] at h
    by_cases hpa : p a
    · rw [if_pos hpa] at h
      cases h
      exact ⟨a, rfl, hpa, fun j hj => absurd hj (Nat.not_lt_zero j)⟩
    · rw [if_neg hpa] at h
      rcases Option.map_eq_some'.mp h with ⟨i', hi', rfl⟩
      rcases ih i' hi' with ⟨x, hx, hpx, hprev⟩
      refine ⟨x, hx, hpx, ?_⟩
      intro j hj y hy
      cases j with
      | zero =>
        have : a = y := by simpa using hy
        subst this
        exact (Bool.not_eq_true _).mp hpa
      | succ j' =>
        exact hprev j' (by omega) y (by simpa using hy)

lemma get?_some_lt_length {α : Type} {l : List α} {i : Nat} {x : α}
    (h : l.get? i = some x) : i < l.length := by
  by_contra hc
  rw [List.get?_eq_getElem?, List.getElem?_eq_none (by omega)] at h
  cases h

/-- C4: `evaluate_forecast_day` matches predictions against the actual flavor
after trimming and lowercasing both sides; `rank` is the actual flavor's
1-based rank among the ordered predictions (`none` if absent, with all
earlier entries non-matching); `top_1_hit` iff rank = 1; `top_5_hit` iff
rank ∈ [1,5]; `log_loss = -log (max p 1e-15)` of the probability at the
matched rank when matched, else `none`. -/
theorem C4_evaluate_forecast_day_contract (predictions : List PredDocEntry) (actual : String) :
    ((evaluate_forecast_day predictions actual).rank = none
      ↔ ∀ p ∈ predictions, normalize_for_match p.flavor ≠ normalize_for_match actual)
    ∧ (∀ k, (evaluate_forecast_day predictions actual).rank = some k →
        1 ≤ k ∧ k ≤ predictions.length
        ∧ (∃ pk, predictions.get? (k - 1) = some pk
            ∧ normalize_for_match pk.flavor = normalize_for_match actual
            ∧ (evaluate_forecast_day predictions actual).log_loss
              = some (negLogClamped (pk.probability.getD 0)))
        ∧ (∀ j, j + 1 < k → ∀ pj, predictions.get? j = some pj →
            normalize_for_match pj.flavor ≠ normalize_for_match actual))
    ∧ ((evaluate_forecast_day predictions actual).top_1_hit = true
        ↔ (evaluate_forecast_day predictions actual).rank = some 1)
    ∧ ((evaluate_forecast_day predictions actual).top_5_hit = true
        ↔ ∃ k, (evaluate_forecast_day predictions actual).rank = some k ∧ 1 ≤ k ∧ k ≤ 5)
    ∧ ((evaluate_forecast_day predictions actual).rank = none →
        (evaluate_forecast_day predictions actual).log_loss = none) := by
  refine ⟨?_, ?_, ?_, ?_, ?_⟩
  · rw [efd_rank, Option.map_eq_none', List.findIdx?_eq_none_iff]
    constructor
    · intro h p hp
      simpa using h p hp
    · intro h p hp
      simpa using h p hp
  · intro k hk
    have hk0 := hk
    rw [efd_rank] at hk
    rcases Option.map_eq_some'.mp hk with ⟨i, hi, hik⟩
    subst hik
    rcases findIdx?_some_spec _ _ _ hi with ⟨pk, hget0, hppk, hprev⟩
    have hget : predictions.get? (i + 1 - 1) = some pk := by simpa using hget0
    have hlen : i < predictions.length := get?_some_lt_length hget0
    refine ⟨by omega, by omega, ?_, ?_⟩
    · refine ⟨pk, hget, by simpa using hppk, ?_⟩
      rw [efd_log_loss, hk0]
      dsimp only
      rw [hget]
      rfl
    · intro j hj pj hpj
      have := hprev j (by omega) pj hpj
      simpa using this
  · rw [efd_top1]
    exact beq_iff_eq
  · cases hr : (evaluate_forecast_day predictions actual).rank with
    | none => simp [efd_top5, hr]
    | some k =>
      have hk1 : 1 ≤ k := by
        rw [efd_rank] at hr
        rcases Option.map_eq_some'.mp hr with ⟨i, _, hik⟩
        omega
      rw [efd_top5, hr]
      simp only [decide_eq_true_eq]
      constructor
      · intro h5
        exact ⟨k, rfl, hk1, h5⟩
      · rintro ⟨k', hk', _, h5⟩
        cases hk'
        exact h5
  · intro h
    rw [efd_log_loss, h]

lemma evalDay_of_lt (actuals : List (String × String)) (cutoff : String) (day : DayDoc)
    (h : strLt (day.date.getD "") cutoff = true) :
    evalDay actuals cutoff day = none := by
  unfold evalDay
  simp [h]

lemma evalDay_of_not_in_actuals (actuals : List (String × String)) (cutoff : String)
    (day : DayDoc) (h : actuals.lookup (day.date.getD "") = none) :
    evalDay actuals cutoff day = none := by
  unfold evalDay
  simp [h]

lemma evalDay_of_empty_preds (actuals : List (String × String)) (cutoff : String)
    (day : DayDoc) (h : day.predictions.getD [] = []) :
    evalDay actuals cutoff day = none := by
  unfold evalDay
  dsimp only
  split
  · rfl
  · cases hl : List.lookup (day.date.getD "") actuals with
    | none => rfl
    | some actual => simp [h]

/-- C7: with zero overlapping evaluable dates — every effective day either
precedes the cutoff or is absent from the actuals map, which in particular
holds for documents missing the `days` and `predictions` keys, treated as
empty collections — `evaluate_store_forecasts` returns the degenerate result
`{0.0, 0.0, None, 0, []}` and never raises. -/
theorem C7_degenerate_on_no_overlap (doc : ForecastDoc) (actuals : List (String × String))
    (window_days today : Int)
    (h : ∀ day ∈ effectiveDays doc,
        strLt (day.date.getD "") (dateToString (today - window_days)) = true
          ∨ actuals.lookup (day.date.getD "") = none) :
    evaluate_store_forecasts doc actuals window_days today = ⟨0, 0, none, 0, []⟩ := by
  unfold evaluate_store_forecasts
  have hdet : (effectiveDays doc).filterMap
      (evalDay actuals (dateToString (today - window_days))) = [] := by
    rw [List.filterMap_eq_nil]
    intro day hday
    rcases h day hday with h1 | h2
    · exact evalDay_of_lt _ _ _ h1
    · exact evalDay_of_not_in_actuals _ _ _ h2
  simp [hdet]

/-- Witness for C7: a document with both `days` and `predictions` keys absent
evaluates to the degenerate result. -/
theorem C7_witness :
    evaluate_store_forecasts ⟨none, none, none⟩ [("2026-02-20", "Turtle")] 30
      (daysFromCivil 2026 2 25) = ⟨0, 0, none, 0, []⟩ :=
  C7_degenerate_on_no_overlap _ _ _ _ (by decide)

/-- C10: a day whose date is within the window and present in the actuals map
but whose predictions list is missing or empty is silently skipped — the
result is the same as if the day were absent, so it contributes nothing to
`n_samples`, `details`, hit rates, or the average log-loss. -/
theorem C10_empty_predictions_day_skipped (days1 days2 : List DayDoc) (bad : DayDoc)
    (p : Option (List PredDocEntry)) (t : Option String)
    (actuals : List (String × String)) (window_days today : Int)
    (hbad : bad.predictions.getD [] = [])
    (hwin : strLt (bad.date.getD "") (dateToString (today - window_days)) = false)
    (hact : (actuals.lookup (bad.date.getD "")).isSome = true)
    (hne : days1 ++ days2 ≠ []) :
    evaluate_store_forecasts ⟨some (days1 ++ bad :: days2), p, t⟩ actuals window_days today
      = evaluate_store_forecasts ⟨some (days1 ++ days2), p, t⟩ actuals window_days today := by
  unfold evaluate_store_forecasts
  have he1 : effectiveDays ⟨some (days1 ++ bad :: days2), p, t⟩ = days1 ++ bad :: days2 := by
    unfold effectiveDays
    simp
  have he2 : effectiveDays ⟨some (days1 ++ days2), p, t⟩ = days1 ++ days2 := by
    unfold effectiveDays
    simp [hne]
  have hb : evalDay actuals (dateToString (today - window_days)) bad = none :=
    evalDay_of_empty_preds _ _ _ hbad
  simp only [he1, he2, List.filterMap_append, List.filterMap_cons, hb]

/-- Witness for C10: a concrete in-window day, present in the actuals, with an
empty predictions list, is skipped. -/
theorem C10_witness :
    evaluate_store_forecasts
        ⟨some ([] ++ (⟨some "2026-02-21", some []⟩ : DayDoc)
          :: [⟨some "2026-02-20", some [⟨"Turtle", some (3 / 10)⟩]⟩]), none, none⟩
        [("2026-02-20", "Turtle"), ("2026-02-21", "Mint")] 30 (daysFromCivil 2026 2 25)
      = evaluate_store_forecasts
        ⟨some ([] ++ [⟨some "2026-02-20", some [⟨"Turtle", some (3 / 10)⟩]⟩]), none, none⟩
        [("2026-02-20", "Turtle"), ("2026-02-21", "Mint")] 30 (daysFromCivil 2026 2 25) :=
  C10_empty_predictions_day_skipped _ _ _ _ _ _ _ _ (by decide) (by decide) (by decide)
    (by simp)

/-- Witness for C4: the spec's own example — predictions led by Turtle at
0.25, actual "Turtle" — is a top-1 hit. -/
theorem C4_witness :
    (evaluate_forecast_day
      [⟨"Turtle", some (1 / 4)⟩, ⟨"Mint Explosion", some (9 / 50)⟩] "Turtle").top_1_hit
      = true :=
  (C4_evaluate_forecast_day_contract
    [⟨"Turtle", some (1 / 4)⟩, ⟨"Mint Explosion", some (9 / 50)⟩] "Turtle").2.2.1.mpr
    (by decide)

lemma titles_map_ne_nil {df : List FlavorEvent} (hdf : df ≠ []) : df.map (·.title) ≠ [] := by
  simpa [List.map_eq_nil_iff] using hdf

/-- C2: for both modeled predictors fit on a non-empty history, every
(store, date) query yields a distribution that sums to exactly 1 (hence
within the 1e-10 tolerance), has only non-negative entries, and whose label
list is exactly the vocabulary frozen at fit time. -/
theorem C2_distribution_invariants (df : List FlavorEvent) (store : String) (date : Int)
    (hdf : df ≠ []) :
    (((FrequencyRecencyModel.fit df).predict_proba store date).map Prod.snd).sum = 1
    ∧ (∀ x ∈ (FrequencyRecencyModel.fit df).predict_proba store date, 0 ≤ x.2)
    ∧ ((FrequencyRecencyModel.fit df).predict_proba store date).map Prod.fst
        = (FrequencyRecencyModel.fit df).all_flavors
    ∧ (((MarkovRecencyModel.fit df).predict_proba store date).map Prod.snd).sum = 1
    ∧ (∀ x ∈ (MarkovRecencyModel.fit df).predict_proba store date, 0 ≤ x.2)
    ∧ ((MarkovRecencyModel.fit df).predict_proba store date).map Prod.fst
        = (MarkovRecencyModel.fit df).all_flavors := by
  have hvne : sortedUnique (df.map (·.title)) ≠ [] := sortedUnique_ne_nil (titles_map_ne_nil hdf)
  refine ⟨?_, ?_, ?_, ?_, ?_, ?_⟩
  · by_cases hE : storeHistorical df store date = []
    · rw [freq_predict_of_empty hE]
      exact uniformDist_sum hvne
    · rw [freq_predict_of_nonempty hE]
      exact normalizeOrId_sum_one (freq_total_pos hE)
  · by_cases hE : storeHistorical df store date = []
    · rw [freq_predict_of_empty hE]
      exact uniformDist_nonneg _
    · rw [freq_predict_of_nonempty hE]
      exact normalizeOrId_nonneg (fun f _ => freq_scores_nonneg f)
  · by_cases hE : storeHistorical df store date = []
    · rw [freq_predict_of_empty hE]
      exact uniformDist_fst _
    · rw [freq_predict_of_nonempty hE]
      exact normalizeOrId_fst _ _
  · rw [markov_predict_eq]
    exact normalizeOrId_sum_one (markov_total_pos store date hdf)
  · rw [markov_predict_eq]
    exact normalizeOrId_nonneg (fun f _ => markov_scores_nonneg df store date f)
  · rw [markov_predict_eq]
    exact normalizeOrId_fst _ _

/-- Witness for C2: the invariants hold at a concrete one-event history. -/
theorem C2_witness :
    ((([⟨"s", 0, "X", 3, 1⟩] : List FlavorEvent) ≠ []))
    ∧ (((FrequencyRecencyModel.fit [⟨"s", 0, "X", 3, 1⟩]).predict_proba "s" 5).map
        Prod.snd).sum = 1 :=
  ⟨by decide, (C2_distribution_invariants [⟨"s", 0, "X", 3, 1⟩] "s" 5 (by decide)).1⟩

/-- C1 (amended): for a model fit on a non-empty history and a (store, date)
query with zero qualifying history, `FrequencyRecencyModel.predict_proba`
returns the uniform distribution over the frozen vocabulary, while
`MarkovRecencyModel.predict_proba` instead returns its documented
global-frequency fallback — the renormalized global unconditional flavor
frequency over the frozen vocabulary, which in general is not uniform.  Both
results are normalized (sum exactly 1).  (The GradientBoosted model returns
its trained classifier's output on the sentinel feature vector, which is not
uniform in general either; the classifier itself is outside this model.) -/
theorem C1_zero_history_fallbacks (df : List FlavorEvent) (store : String) (date : Int)
    (hdf : df ≠ []) (hE : storeHistorical df store date = []) :
    (FrequencyRecencyModel.fit df).predict_proba store date
      = uniformDist (FrequencyRecencyModel.fit df).all_flavors
    ∧ (MarkovRecencyModel.fit df).predict_proba store date
        = (MarkovRecencyModel.fit df).all_flavors.map (fun f => (f, flavor_probability df f))
    ∧ (((FrequencyRecencyModel.fit df).predict_proba store date).map Prod.snd).sum = 1
    ∧ (((MarkovRecencyModel.fit df).predict_proba store date).map Prod.snd).sum = 1 := by
  have hvne : sortedUnique (df.map (·.title)) ≠ [] := sortedUnique_ne_nil (titles_map_ne_nil hdf)
  refine ⟨freq_predict_of_empty hE, markov_predict_of_empty hdf hE, ?_, ?_⟩
  · rw [freq_predict_of_empty hE]
    exact uniformDist_sum hvne
  · rw [markov_predict_of_empty hdf hE, List.map_map]
    exact sum_flavor_probability (sortedUnique_nodup _) (titles_subset_sortedUnique df) hdf

/-- Witness for C1 (amended): a store with no qualifying history at a concrete
one-event training set receives the uniform distribution from the
frequency-recency model. -/
theorem C1_witness :
    (FrequencyRecencyModel.fit [⟨"b", 0, "X", 3, 1⟩]).predict_proba "a" 5
      = uniformDist (FrequencyRecencyModel.fit [⟨"b", 0, "X", 3, 1⟩]).all_flavors :=
  (C1_zero_history_fallbacks [⟨"b", 0, "X", 3, 1⟩] "a" 5 (by decide) (by decide)).1

/-- Counterexample to C1 as stated: fit `MarkovRecencyModel` on a history
whose global flavor frequency is non-uniform (X twice, Y once, all at store
"b"); the query ("a", 10) has zero qualifying history, yet `predict_proba`
returns the global-frequency fallback (2/3, 1/3), not the uniform
distribution (1/2, 1/2) over the frozen vocabulary. -/
theorem C1_counterexample :
    storeHistorical [⟨"b", 0, "X", 3, 1⟩, ⟨"b", 1, "X", 4, 1⟩, ⟨"b", 2, "Y", 5, 1⟩] "a" 10 = []
    ∧ (MarkovRecencyModel.fit
        [⟨"b", 0, "X", 3, 1⟩, ⟨"b", 1, "X", 4, 1⟩, ⟨"b", 2, "Y", 5, 1⟩]).predict_proba "a" 10
      ≠ uniformDist (MarkovRecencyModel.fit
        [⟨"b", 0, "X", 3, 1⟩, ⟨"b", 1, "X", 4, 1⟩, ⟨"b", 2, "Y", 5, 1⟩]).all_flavors := by
  refine ⟨by decide, ?_⟩
  rw [markov_predict_of_empty (by decide) (by decide)]
  have hv : (MarkovRecencyModel.fit
      [⟨"b", 0, "X", 3, 1⟩, ⟨"b", 1, "X", 4, 1⟩, ⟨"b", 2, "Y", 5, 1⟩]).all_flavors
      = ["X", "Y"] := by decide
  have hsu : sortedUnique (List.map (·.title)
      ([⟨"b", 0, "X", 3, 1⟩, ⟨"b", 1, "X", 4, 1⟩, ⟨"b", 2, "Y", 5, 1⟩] : List FlavorEvent))
      = ["X", "Y"] := by decide
  intro h
  rw [hsu, hv, uniformDist] at h
  simp only [List.map_cons, List.map_nil, List.cons.injEq, Prod.mk.injEq,
    List.length_cons, List.length_nil] at h
  have hX : flavor_probability
      [⟨"b", 0, "X", 3, 1⟩, ⟨"b", 1, "X", 4, 1⟩, ⟨"b", 2, "Y", 5, 1⟩] "X" = 2 / 3 := by
    unfold flavor_probability countTitle
    simp +decide
  obtain ⟨⟨-, hXval⟩, -⟩ := h
  rw [hX] at hXval
  norm_num at hXval

lemma storeHistorical_congr {df1 df2 : List FlavorEvent} {s : String} {d : Int}
    (hpre : df1.filter (fun r => r.flavor_date < d) = df2.filter (fun r => r.flavor_date < d)) :
    storeHistorical df1 s d = storeHistorical df2 s d := by
  unfold storeHistorical
  have h1 : ∀ (df : List FlavorEvent),
      df.filter (fun r => r.store_slug == s && r.flavor_date < d)
      = (df.filter (fun r => r.flavor_date < d)).filter (fun r => r.store_slug == s) := by
    intro df
    rw [List.filter_filter]
  rw [h1 df1, h1 df2, hpre]

/-- C3 (amended): `FrequencyRecencyModel.predict_proba` depends only on the
events strictly before the query date together with the vocabulary frozen at
fit time: two fit histories that agree on all pre-date events and freeze the
same vocabulary yield identical distributions.  `MarkovRecencyModel`
additionally depends on the whole training data through its global transition
matrix and its global-frequency fallback: when those also agree, its
distributions are identical as well.  (Agreement on pre-date events alone is
not sufficient for any model: see the counterexample.) -/
theorem C3_no_future_leakage_amended (df1 df2 : List FlavorEvent) (store : String) (date : Int)
    (hpre : df1.filter (fun r => r.flavor_date < date)
      = df2.filter (fun r => r.flavor_date < date))
    (hvoc : sortedUnique (df1.map (·.title)) = sortedUnique (df2.map (·.title))) :
    (FrequencyRecencyModel.fit df1).predict_proba store date
      = (FrequencyRecencyModel.fit df2).predict_proba store date
    ∧ (transitionPairs df1 = transitionPairs df2 →
        flavor_probability df1 = flavor_probability df2 →
        (MarkovRecencyModel.fit df1).predict_proba store date
          = (MarkovRecencyModel.fit df2).predict_proba store date) := by
  have hh : storeHistorical df1 store date = storeHistorical df2 store date :=
    storeHistorical_congr hpre
  constructor
  · unfold FrequencyRecencyModel.predict_proba
    simp only [FrequencyRecencyModel.fit]
    rw [hh, hvoc]
    rfl
  · intro htm hgf
    unfold MarkovRecencyModel.predict_proba
    simp only [MarkovRecencyModel.fit]
    rw [hh, hvoc]
    refine congrArg _ ?_
    funext f
    unfold MarkovRecencyModel.scores MarkovRecencyModel.markov_probs
      MarkovRecencyModel.recency_scores
    dsimp only
    rw [htm, hgf]

/-- Counterexample to C3 as stated: (a) two histories that agree on all events
strictly before the query date (both have none) but differ in future events
give FrequencyRecencyModel different distributions (uniform over different
frozen vocabularies); (b) two histories agreeing on pre-date events and even
on the frozen vocabulary still give MarkovRecencyModel different
distributions, because its global-frequency fallback counts future events. -/
theorem C3_counterexample :
    (([⟨"b", 10, "X", 3, 1⟩] : List FlavorEvent).filter (fun r => r.flavor_date < 5)
      = ([⟨"b", 10, "X", 3, 1⟩, ⟨"b", 11, "Y", 4, 1⟩] : List FlavorEvent).filter
          (fun r => r.flavor_date < 5))
    ∧ (FrequencyRecencyModel.fit [⟨"b", 10, "X", 3, 1⟩]).predict_proba "a" 5
        ≠ (FrequencyRecencyModel.fit
            [⟨"b", 10, "X", 3, 1⟩, ⟨"b", 11, "Y", 4, 1⟩]).predict_proba "a" 5
    ∧ (([⟨"b", 10, "X", 3, 1⟩, ⟨"b", 11, "X", 4, 1⟩, ⟨"b", 12, "Y", 5, 1⟩] : List FlavorEvent).filter
          (fun r => r.flavor_date < 5)
        = ([⟨"b", 10, "X", 3, 1⟩, ⟨"b", 11, "Y", 4, 1⟩, ⟨"b", 12, "Y", 5, 1⟩] : List FlavorEvent).filter
          (fun r => r.flavor_date < 5))
    ∧ sortedUnique (List.map (·.title)
          ([⟨"b", 10, "X", 3, 1⟩, ⟨"b", 11, "X", 4, 1⟩, ⟨"b", 12, "Y", 5, 1⟩] : List FlavorEvent))
        = sortedUnique (List.map (·.title)
          ([⟨"b", 10, "X", 3, 1⟩, ⟨"b", 11, "Y", 4, 1⟩, ⟨"b", 12, "Y", 5, 1⟩] : List FlavorEvent))
    ∧ (MarkovRecencyModel.fit
          [⟨"b", 10, "X", 3, 1⟩, ⟨"b", 11, "X", 4, 1⟩, ⟨"b", 12, "Y", 5, 1⟩]).predict_proba "b" 5
        ≠ (MarkovRecencyModel.fit
          [⟨"b", 10, "X", 3, 1⟩, ⟨"b", 11, "Y", 4, 1⟩, ⟨"b", 12, "Y", 5, 1⟩]).predict_proba "b" 5 := by
  refine ⟨by decide, ?_, by decide, by decide, ?_⟩
  · intro h
    exact absurd (congrArg List.length h) (by decide)
  · intro h
    rw [markov_predict_of_empty (by decide) (by decide),
      markov_predict_of_empty (by decide) (by decide)] at h
    have hsu3 : sortedUnique (List.map (·.title)
        ([⟨"b", 10, "X", 3, 1⟩, ⟨"b", 11, "X", 4, 1⟩, ⟨"b", 12, "Y", 5, 1⟩] : List FlavorEvent))
        = ["X", "Y"] := by decide
    have hsu4 : sortedUnique (List.map (·.title)
        ([⟨"b", 10, "X", 3, 1⟩, ⟨"b", 11, "Y", 4, 1⟩, ⟨"b", 12, "Y", 5, 1⟩] : List FlavorEvent))
        = ["X", "Y"] := by decide
    rw [hsu3, hsu4] at h
    simp only [List.map_cons, List.map_nil, List.cons.injEq, Prod.mk.injEq] at h
    obtain ⟨⟨-, hXval⟩, -⟩ := h
    have hX3 : flavor_probability
        [⟨"b", 10, "X", 3, 1⟩, ⟨"b", 11, "X", 4, 1⟩, ⟨"b", 12, "Y", 5, 1⟩] "X" = 2 / 3 := by
      unfold flavor_probability countTitle
      simp +decide
    have hX4 : flavor_probability
        [⟨"b", 10, "X", 3, 1⟩, ⟨"b", 11, "Y", 4, 1⟩, ⟨"b", 12, "Y", 5, 1⟩] "X" = 1 / 3 := by
      unfold flavor_probability countTitle
      simp +decide
    rw [hX3, hX4] at hXval
    norm_num at hXval

/-- Witness for C3 (amended): two histories that differ only in a future
event's date — so they agree on all pre-date events and freeze the same
vocabulary — receive identical frequency-recency distributions. -/
theorem C3_witness :
    (FrequencyRecencyModel.fit [⟨"b", 0, "X", 3, 1⟩, ⟨"b", 10, "X", 3, 1⟩]).predict_proba "b" 5
      = (FrequencyRecencyModel.fit
          [⟨"b", 0, "X", 3, 1⟩, ⟨"b", 11, "X", 4, 1⟩]).predict_proba "b" 5 :=
  (C3_no_future_leakage_amended [⟨"b", 0, "X", 3, 1⟩, ⟨"b", 10, "X", 3, 1⟩]
    [⟨"b", 0, "X", 3, 1⟩, ⟨"b", 11, "X", 4, 1⟩] "b" 5 (by decide) (by decide)).1

/-- C8 (amended): in `FrequencyRecencyModel.predict_proba`, the recency
component of a flavor served at least twice at the store equals
`min(days_since_last / expected, 3) / 3` with
`expected = max(7, store_history_span_days / (count - 1))` and lies in [0,1];
a flavor served exactly once also receives this component, with its count
clipped to 2, i.e. `expected = max(7, store_history_span_days)`; flavors
never served at the store have component exactly 0. -/
theorem C8_recency_component (df : List FlavorEvent) (s : String) (d : Int) (f : String) :
    (2 ≤ countTitle (storeHistorical df s d) f →
      overdue_ratio (storeHistorical df s d) d f
        = min (((d - lastSeen (storeHistorical df s d) f : Int) : ℚ)
            / max 7 ((totalSpan (storeHistorical df s d) : ℚ)
                / ((countTitle (storeHistorical df s d) f : ℚ) - 1))) 3 / 3)
    ∧ (countTitle (storeHistorical df s d) f = 1 →
      overdue_ratio (storeHistorical df s d) d f
        = min (((d - lastSeen (storeHistorical df s d) f : Int) : ℚ)
            / max 7 (totalSpan (storeHistorical df s d) : ℚ)) 3 / 3)
    ∧ (countTitle (storeHistorical df s d) f = 0 →
      overdue_ratio (storeHistorical df s d) d f = 0)
    ∧ 0 ≤ overdue_ratio (storeHistorical df s d) d f
    ∧ overdue_ratio (storeHistorical df s d) d f ≤ 1 := by
  refine ⟨?_, ?_, ?_,
    overdue_ratio_nonneg _ _ _ (fun r hr => (storeHistorical_dates r hr).2),
    overdue_ratio_le_one _ _ _⟩
  · intro h2
    unfold overdue_ratio
    rw [if_neg (by omega)]
    have hm : max ((countTitle (storeHistorical df s d) f : ℚ)) 2
        = (countTitle (storeHistorical df s d) f : ℚ) :=
      max_eq_left (by exact_mod_cast h2)
    rw [hm]
  · intro h1
    unfold overdue_ratio
    rw [if_neg (by omega), h1]
    norm_num
  · intro h0
    unfold overdue_ratio
    rw [if_pos h0]

/-- Counterexample to C8 as stated: a flavor served exactly once still
receives a nonzero recency component (10/21 here), although the claim makes
the overdue ratio defined only for flavors served at least twice and keeps
all other flavors at 0. -/
theorem C8_counterexample :
    countTitle (storeHistorical [⟨"s", 0, "X", 3, 1⟩] "s" 10) "X" = 1
    ∧ overdue_ratio (storeHistorical [⟨"s", 0, "X", 3, 1⟩] "s" 10) 10 "X" = 10 / 21
    ∧ (10 / 21 : ℚ) ≠ 0 := by
  refine ⟨by decide, ?_, by norm_num⟩
  have hh : storeHistorical [⟨"s", 0, "X", 3, 1⟩] "s" 10
      = [⟨"s", 0, "X", 3, 1⟩] := by decide
  rw [hh]
  unfold overdue_ratio countTitle lastSeen totalSpan intListMax intListMin
  norm_num [min_def, max_def]

/-- Witness for C8 (amended): the ≥2-servings formula evaluated at a store
with two servings of "X" seven days apart. -/
theorem C8_witness :
    overdue_ratio (storeHistorical [⟨"s", 0, "X", 3, 1⟩, ⟨"s", 7, "X", 4, 1⟩] "s" 10) 10 "X"
      = min ((((10 : Int) - lastSeen
            (storeHistorical [⟨"s", 0, "X", 3, 1⟩, ⟨"s", 7, "X", 4, 1⟩] "s" 10) "X" : Int) : ℚ)
          / max 7 ((totalSpan (storeHistorical
              [⟨"s", 0, "X", 3, 1⟩, ⟨"s", 7, "X", 4, 1⟩] "s" 10) : ℚ)
            / ((countTitle (storeHistorical
              [⟨"s", 0, "X", 3, 1⟩, ⟨"s", 7, "X", 4, 1⟩] "s" 10) "X" : ℚ) - 1))) 3 / 3 :=
  (C8_recency_component [⟨"s", 0, "X", 3, 1⟩, ⟨"s", 7, "X", 4, 1⟩] "s" 10 "X").1 (by decide)

lemma gfj_total (predict : String → Int → List (String × ℚ)) (df : List FlavorEvent)
    (store : String) (d : Int) (n : Nat) :
    (generate_forecast_json predict df store d n).total_probability
      = round4 (((predict store d).map (·.2)).sum) := rfl

lemma gfj_predictions (predict : String → Int → List (String × ℚ)) (df : List FlavorEvent)
    (store : String) (d : Int) (n : Nat) :
    (generate_forecast_json predict df store d n).predictions
      = (nlargestPairs n (predict store d)).map (fun p => PredEntry.mk p.1 (round4 p.2)) := rfl

lemma gfj_date (predict : String → Int → List (String × ℚ)) (df : List FlavorEvent)
    (store : String) (d : Int) (n : Nat) :
    (generate_forecast_json predict df store d n).date = dateToString d := rfl

/-- C5 (amended): the single-day document's `total_probability` is the rounded
sum of the model's FULL distribution — `round(float(proba.sum()), 4)` — not
the sum of the returned top-N predictions; in particular it is 1.0 whenever
the distribution is normalized, regardless of how many predictions are
returned.  The document's predictions are the rounded top-N pairs. -/
theorem C5_total_probability_is_full_sum (predict : String → Int → List (String × ℚ))
    (df : List FlavorEvent) (store : String) (d : Int) (n : Nat) :
    (generate_forecast_json predict df store d n).total_probability
      = round4 (((predict store d).map (·.2)).sum)
    ∧ (generate_forecast_json predict df store d n).predictions
      = (nlargestPairs n (predict store d)).map (fun p => PredEntry.mk p.1 (round4 p.2))
    ∧ (((predict store d).map (·.2)).sum = 1 →
        (generate_forecast_json predict df store d n).total_probability = 1) := by
  refine ⟨gfj_total predict df store d n, gfj_predictions predict df store d n, ?_⟩
  intro h1
  rw [gfj_total, h1]
  unfold round4 roundHalfEven
  norm_num

/-- Witness for C5 (amended): a normalized one-entry distribution gives
`total_probability = 1`. -/
theorem C5_witness :
    (generate_forecast_json (fun _ _ => [("X", (1 : ℚ))]) [] "a" 5 3).total_probability = 1 :=
  (C5_total_probability_is_full_sum (fun _ _ => [("X", (1 : ℚ))]) [] "a" 5 3).2.2 (by norm_num)

/-- Counterexample to C5 as stated: with a two-flavor vocabulary, an empty
store history (uniform 1/2-1/2 distribution) and `n_predictions = 1`, the
document's `total_probability` is 1.0 while the returned top-1 predictions
sum to 0.5. -/
theorem C5_counterexample :
    (generate_forecast_json
        ((FrequencyRecencyModel.fit [⟨"b", 0, "X", 3, 1⟩, ⟨"b", 1, "Y", 4, 1⟩]).predict_proba)
        [⟨"b", 0, "X", 3, 1⟩, ⟨"b", 1, "Y", 4, 1⟩] "a" 5 1).total_probability
      ≠ (((generate_forecast_json
        ((FrequencyRecencyModel.fit [⟨"b", 0, "X", 3, 1⟩, ⟨"b", 1, "Y", 4, 1⟩]).predict_proba)
        [⟨"b", 0, "X", 3, 1⟩, ⟨"b", 1, "Y", 4, 1⟩] "a" 5 1).predictions).map
        (·.probability)).sum := by
  have hE : storeHistorical [⟨"b", 0, "X", 3, 1⟩, ⟨"b", 1, "Y", 4, 1⟩] "a" 5 = [] := by decide
  have hsu : sortedUnique (List.map (·.title)
      ([⟨"b", 0, "X", 3, 1⟩, ⟨"b", 1, "Y", 4, 1⟩] : List FlavorEvent)) = ["X", "Y"] := by decide
  have hproba : (FrequencyRecencyModel.fit
      [⟨"b", 0, "X", 3, 1⟩, ⟨"b", 1, "Y", 4, 1⟩]).predict_proba "a" 5
      = [("X", (1 : ℚ) / 2), ("Y", (1 : ℚ) / 2)] := by
    rw [freq_predict_of_empty hE]
    unfold uniformDist
    rw [hsu]
    norm_num
  rw [gfj_total, gfj_predictions, hproba]
  norm_num [nlargestPairs, insertionSortBy, orderedInsertBy, round4, roundHalfEven]

/-- C9: the multi-day document has exactly `n_days` day entries whose dates
are the consecutive calendar dates from `start_date` (ISO-formatted), every
emitted prediction carries `certainty_tier = "estimated"`, and the wrapper
carries the store slug, the generation timestamp, and `history_depth` equal
to the store's event count in the provided history. -/
theorem C9_multiday_structure (predict : String → Int → List (String × ℚ))
    (df : List FlavorEvent) (store : String) (start : Int) (n_days n_predictions : Nat)
    (now : String) :
    (generate_multiday_forecast_json predict df store start n_days n_predictions now).days.length
      = n_days
    ∧ (∀ i, i < n_days →
        ((generate_multiday_forecast_json predict df store start n_days n_predictions
          now).days.map (·.date)).get? i = some (dateToString (start + i)))
    ∧ (∀ day ∈ (generate_multiday_forecast_json predict df store start n_days n_predictions
          now).days, ∀ p ∈ day.predictions, p.certainty_tier = "estimated")
    ∧ (generate_multiday_forecast_json predict df store start n_days n_predictions
        now).store_slug = store
    ∧ (generate_multiday_forecast_json predict df store start n_days n_predictions
        now).generated_at = now
    ∧ (generate_multiday_forecast_json predict df store start n_days n_predictions
        now).history_depth = (df.filter (fun r => r.store_slug == store)).length := by
  have hdays : (generate_multiday_forecast_json predict df store start n_days n_predictions
      now).days
      = (List.range n_days).map (fun (i : Nat) =>
          MultiDayEntry.mk
            (generate_forecast_json predict df store (start + (i : Int)) n_predictions).date
            ((generate_forecast_json predict df store (start + (i : Int))
              n_predictions).predictions.map
              (fun q => TieredPred.mk q.flavor q.probability "estimated"))
            (generate_forecast_json predict df store (start + (i : Int))
              n_predictions).overdue_flavors
            (generate_forecast_json predict df store (start + (i : Int)) n_predictions).prose)
      := by
    unfold generate_multiday_forecast_json
    rfl
  refine ⟨?_, ?_, ?_, rfl, rfl, rfl⟩
  · rw [hdays]
    simp
  · intro i hi
    rw [hdays, List.map_map, List.get?_eq_getElem?, List.getElem?_map, List.getElem?_range hi]
    rfl
  · intro day hday p hp
    rw [hdays] at hday
    rcases List.mem_map.mp hday with ⟨i, _, hentry⟩
    rw [← hentry] at hp
    rcases List.mem_map.mp hp with ⟨q, _, hq⟩
    rw [← hq]

/-- Witness for C9: seven days from 2026-02-23 end on 2026-03-01 inclusive. -/
theorem C9_witness :
    ((generate_multiday_forecast_json (fun _ _ => [("X", (1 : ℚ))]) [] "mt-horeb"
        (daysFromCivil 2026 2 23) 7 10 "2026-02-22T12:00:00").days.map (·.date)).get? 6
      = some "2026-03-01" := by
  have h := (C9_multiday_structure (fun _ _ => [("X", (1 : ℚ))]) [] "mt-horeb"
    (daysFromCivil 2026 2 23) 7 10 "2026-02-22T12:00:00").2.1 6 (by norm_num)
  rw [h, show dateToString (daysFromCivil 2026 2 23 + (6 : Nat)) = "2026-03-01" from by decide]

lemma esf_unfold (doc : ForecastDoc) (actuals : List (String × String)) (w today : Int) :
    evaluate_store_forecasts doc actuals w today
      = (if ((effectiveDays doc).filterMap
            (evalDay actuals (dateToString (today - w)))).length = 0
        then (⟨0, 0, none, 0, []⟩ : StoreEval)
        else
          ⟨((((effectiveDays doc).filterMap (evalDay actuals (dateToString (today - w)))).filter
              (·.top_1_hit)).length : ℚ)
            / (((effectiveDays doc).filterMap
              (evalDay actuals (dateToString (today - w)))).length : ℚ),
            ((((effectiveDays doc).filterMap (evalDay actuals (dateToString (today - w)))).filter
              (·.top_5_hit)).length : ℚ)
            / (((effectiveDays doc).filterMap
              (evalDay actuals (dateToString (today - w)))).length : ℚ),
            if (((effectiveDays doc).filterMap
                (evalDay actuals (dateToString (today - w)))).filterMap (·.log_loss)).isEmpty
            then none
            else some ((((effectiveDays doc).filterMap
                (evalDay actuals (dateToString (today - w)))).filterMap (·.log_loss)).sum
              / ((((effectiveDays doc).filterMap
                (evalDay actuals (dateToString (today - w)))).filterMap (·.log_loss)).length : ℝ)),
            ((effectiveDays doc).filterMap (evalDay actuals (dateToString (today - w)))).length,
            (effectiveDays doc).filterMap (evalDay actuals (dateToString (today - w)))⟩) := rfl

lemma esf_n_samples (doc : ForecastDoc) (actuals : List (String × String)) (w today : Int) :
    (evaluate_store_forecasts doc actuals w today).n_samples
      = ((effectiveDays doc).filterMap (evalDay actuals (dateToString (today - w)))).length := by
  rw [esf_unfold]
  split
  · next h => simp [h]
  · rfl

lemma evalDay_isSome (actuals : List (String × String)) (cutoff : String) (day : DayDoc) :
    (evalDay actuals cutoff day).isSome
      = (!strLt (day.date.getD "") cutoff
        && (actuals.lookup (day.date.getD "")).isSome
        && !(day.predictions.getD []).isEmpty) := by
  unfold evalDay
  dsimp only
  split
  · next h => simp [h]
  · next h =>
    cases hl : List.lookup (day.date.getD "") actuals with
    | none =>
      rw [Bool.not_eq_true] at h
      simp [h, hl]
    | some a =>
      rw [Bool.not_eq_true] at h
      by_cases he : (day.predictions.getD []).isEmpty
      · simp [h, hl, he]
      · simp [h, hl, he]

lemma length_filterMap_isSome {α β : Type} (f : α → Option β) (l : List α) :
    (l.filterMap f).length = l.countP (fun a => (f a).isSome) := by
  induction l with
  | nil => simp
  | cons a t ih =>
    cases hf : f a with
    | none => simp [List.filterMap_cons, hf, List.countP_cons, ih]
    | some b => simp [List.filterMap_cons, hf, List.countP_cons, ih]

/-- C6 (amended): `evaluate_store_forecasts` accepts the multi-day shape and a
single-day fallback shape keyed by `target_date` (not the spec's `date` key):
with the `days` key missing or empty and non-empty `predictions` plus a
non-empty `target_date`, it behaves exactly as on the one-day multi-day
document synthesized from those two keys.  It evaluates exactly the days with
date ≥ `today - window_days` (dates as strings; there is no upper bound at
`today`) that appear in the actuals map and have a non-empty predictions
list; the top-1/top-5 hit rates are the fraction of those evaluated days that
hit, and the average log-loss is taken only over the evaluated days whose
actual flavor was matched. -/
theorem C6_store_forecast_evaluation (doc : ForecastDoc) (actuals : List (String × String))
    (w today : Int) :
    (∀ p t, doc.days.getD [] = [] → doc.predictions = some p → p.isEmpty = false →
        doc.target_date = some t → t ≠ "" →
        evaluate_store_forecasts doc actuals w today
          = evaluate_store_forecasts ⟨some [⟨some t, some p⟩], none, none⟩ actuals w today)
    ∧ (evaluate_store_forecasts doc actuals w today).n_samples
        = (effectiveDays doc).countP (fun day =>
            !strLt (day.date.getD "") (dateToString (today - w))
            && (actuals.lookup (day.date.getD "")).isSome
            && !(day.predictions.getD []).isEmpty)
    ∧ ((evaluate_store_forecasts doc actuals w today).n_samples ≠ 0 →
        (evaluate_store_forecasts doc actuals w today).top_1_hit_rate
          = (((evaluate_store_forecasts doc actuals w today).details.filter
              (·.top_1_hit)).length : ℚ)
            / ((evaluate_store_forecasts doc actuals w today).n_samples : ℚ)
        ∧ (evaluate_store_forecasts doc actuals w today).top_5_hit_rate
          = (((evaluate_store_forecasts doc actuals w today).details.filter
              (·.top_5_hit)).length : ℚ)
            / ((evaluate_store_forecasts doc actuals w today).n_samples : ℚ)
        ∧ (evaluate_store_forecasts doc actuals w today).avg_log_loss
          = (if (((evaluate_store_forecasts doc actuals w today).details.filterMap
                (·.log_loss))).isEmpty then none
            else some ((((evaluate_store_forecasts doc actuals w today).details.filterMap
                (·.log_loss))).sum
              / ((((evaluate_store_forecasts doc actuals w today).details.filterMap
                (·.log_loss))).length : ℝ)))) := by
  refine ⟨?_, ?_, ?_⟩
  · intro p t hdays hp hpne ht htne
    have he1 : effectiveDays doc = [⟨some t, some p⟩] := by
      unfold effectiveDays
      rw [hdays, hp, ht]
      simp [hpne, htne]
    have he2 : effectiveDays ⟨some [⟨some t, some p⟩], none, none⟩ = [⟨some t, some p⟩] := by
      unfold effectiveDays
      simp
    rw [esf_unfold, esf_unfold, he1, he2]
  · rw [esf_n_samples, length_filterMap_isSome]
    apply List.countP_congr
    intro day _
    rw [evalDay_isSome actuals (dateToString (today - w)) day]
  · intro hn
    have h0 : ((effectiveDays doc).filterMap
        (evalDay actuals (dateToString (today - w)))).length ≠ 0 := by
      rw [esf_n_samples] at hn
      exact hn
    rw [esf_unfold, if_neg h0]
    exact ⟨rfl, rfl, rfl⟩

/-- Counterexample to C6 as stated: (a) the spec's single-day document shape
carries its date under the `date` key, so the evaluator's fallback — which
reads `target_date` — never evaluates it even when its predictions and an
in-window actual are present; (b) a forecast day dated after `today` (outside
`[today - window_days, today]`) that appears in the actuals map IS evaluated:
the code enforces no upper window bound. -/
theorem C6_counterexample :
    (evaluate_store_forecasts ⟨none, some [⟨"Turtle", some (3 / 10)⟩], none⟩
        [("2026-02-20", "Turtle")] 30 (daysFromCivil 2026 2 25)).n_samples = 0
    ∧ strLt (dateToString (daysFromCivil 2026 2 25)) "2026-03-10" = true
    ∧ (evaluate_store_forecasts
        ⟨some [⟨some "2026-03-10", some [⟨"Turtle", some (3 / 10)⟩]⟩], none, none⟩
        [("2026-03-10", "Turtle")] 30 (daysFromCivil 2026 2 25)).n_samples = 1 := by
  refine ⟨by decide, by decide, by decide⟩

/-- Witness for C6 (amended): a document in the `target_date` single-day
fallback shape evaluates exactly like the synthesized one-day document. -/
theorem C6_witness :
    evaluate_store_forecasts ⟨none, some [⟨"Turtle", some (3 / 10)⟩], some "2026-02-20"⟩
        [("2026-02-20", "Turtle")] 30 (daysFromCivil 2026 2 25)
      = evaluate_store_forecasts
        ⟨some [⟨some "2026-02-20", some [⟨"Turtle", some (3 / 10)⟩]⟩], none, none⟩
        [("2026-02-20", "Turtle")] 30 (daysFromCivil 2026 2 25) :=
  (C6_store_forecast_evaluation ⟨none, some [⟨"Turtle", some (3 / 10)⟩], some "2026-02-20"⟩
    [("2026-02-20", "Turtle")] 30 (daysFromCivil 2026 2 25)).1
    [⟨"Turtle", some (3 / 10)⟩] "2026-02-20" rfl rfl (by decide) rfl (by decide)
